import Mathlib

/-!
Verification development for the Monaco Watch Company backend
(`main.py`, `schemas.py`).

The document store is schemaless: a stored document may miss any field
(the spec explicitly considers "partially-malformed legacy documents" and
manual edits).  A stored document is therefore embedded as a structure in
which every field is optional; documents created by the seeding engine
carry every field.  Store-assigned object ids are embedded as natural
numbers (the API exposes them via `str(...)`, embedded as `toString`).
Python floats carry no arithmetic in this code base (they are only stored,
defaulted and returned), so numeric fields are embedded as `Rat`.
-/

/-- A stored document of the "watch" collection.  Every field is optional:
the store is schemaless and the spec explicitly tolerates partially
malformed documents.  Field names follow `schemas.Watch`. -/
structure WatchDoc where
  name : Option String := none
  brand : Option String := none
  description : Option String := none
  price : Option Rat := none
  currency : Option String := none
  images : Option (List String) := none
  thumbnail : Option String := none
  movement : Option String := none
  «case» : Option String := none
  strap : Option String := none
  water_resistance : Option String := none
  power_reserve : Option String := none
  complications : Option (List String) := none
  featured : Option Bool := none
  in_stock : Option Bool := none
  rating : Option Rat := none
deriving DecidableEq

/-- A stored document of the "blog" collection, all fields optional
(schemaless store).  Field names follow `schemas.BlogPost`. -/
structure BlogDoc where
  slug : Option String := none
  title : Option String := none
  excerpt : Option String := none
  content : Option String := none
  tags : Option (List String) := none
  locale : Option String := none
  hero_image : Option String := none
deriving DecidableEq

/-- `schemas.Watch`: the validated model used to build demo documents. -/
structure Watch where
  name : String
  brand : String
  description : Option String := none
  price : Rat
  currency : String := "USD"
  images : List String := []
  thumbnail : Option String := none
  movement : Option String := none
  «case» : Option String := none
  strap : Option String := none
  water_resistance : Option String := none
  power_reserve : Option String := none
  complications : List String := []
  featured : Bool := false
  in_stock : Bool := true
  rating : Option Rat := none
deriving DecidableEq

/-- `schemas.BlogPost`: the validated model used to build demo documents. -/
structure BlogPost where
  slug : String
  title : String
  excerpt : String
  content : String
  tags : List String := []
  locale : String := "en"
  hero_image : Option String := none
deriving DecidableEq

/-- The stored document produced by persisting a `Watch` model: every field
present. -/
def watchToDoc (w : Watch) : WatchDoc :=
  { name := some w.name
    brand := some w.brand
    description := w.description
    price := some w.price
    currency := some w.currency
    images := some w.images
    thumbnail := w.thumbnail
    movement := w.movement
    «case» := w.«case»
    strap := w.strap
    water_resistance := w.water_resistance
    power_reserve := w.power_reserve
    complications := some w.complications
    featured := some w.featured
    in_stock := some w.in_stock
    rating := w.rating }

/-- The stored document produced by persisting a `BlogPost` model. -/
def blogToDoc (p : BlogPost) : BlogDoc :=
  { slug := some p.slug
    title := some p.title
    excerpt := some p.excerpt
    content := some p.content
    tags := some p.tags
    locale := some p.locale
    hero_image := p.hero_image }

/-- `main.WatchOut`: the public output record of a watch. -/
structure WatchOut where
  id : String
  name : String
  brand : String
  description : Option String
  price : Rat
  currency : String
  images : List String
  thumbnail : Option String
  movement : Option String
  «case» : Option String
  strap : Option String
  water_resistance : Option String
  power_reserve : Option String
  complications : List String
  featured : Bool
  in_stock : Bool
  rating : Option Rat
deriving DecidableEq

/-- `main.BlogOut`: the public output record of a blog post. -/
structure BlogOut where
  id : String
  slug : String
  title : String
  excerpt : String
  content : String
  tags : List String
  locale : String
  hero_image : Option String
deriving DecidableEq

/-- The thumbnail expression of `main._doc_to_watch_out`:
`str(doc.get("thumbnail")) if doc.get("thumbnail") else None`.  A missing
thumbnail and a present-but-empty one (both falsy in Python) project to
`None`; a non-empty string passes through (`str` is the identity on it). -/
def strIfTruthy (o : Option String) : Option String :=
  match o with
  | some s => if s = "" then none else some s
  | none => none

/-- `main._doc_to_watch_out`.  `price` and `currency` (and the
defaulted booleans) are read with code-side defaults, `thumbnail` goes
through the truthiness check `strIfTruthy`, but `name` and `brand` are
passed to the required `str` fields of `WatchOut` untouched: a document
missing either fails model validation, embedded as `none`. -/
def docToWatchOut (i : Nat) (d : WatchDoc) : Option WatchOut :=
  match d.name, d.brand with
  | some n, some b =>
      some { id := toString i
             name := n
             brand := b
             description := d.description
             price := d.price.getD 0
             currency := d.currency.getD "USD"
             images := d.images.getD []
             thumbnail := strIfTruthy d.thumbnail
             movement := d.movement
             «case» := d.«case»
             strap := d.strap
             water_resistance := d.water_resistance
             power_reserve := d.power_reserve
             complications := d.complications.getD []
             featured := d.featured.getD false
             in_stock := d.in_stock.getD true
             rating := d.rating }
  | _, _ => none

/-- `main._doc_to_blog_out`.  `tags` and `locale` are read with code-side
defaults; `slug`, `title`, `excerpt` and `content` feed required `str`
fields of `BlogOut`, so a document missing one of them fails validation. -/
def docToBlogOut (i : Nat) (d : BlogDoc) : Option BlogOut :=
  match d.slug, d.title, d.excerpt, d.content with
  | some s, some t, some e, some ct =>
      some { id := toString i
             slug := s
             title := t
             excerpt := e
             content := ct
             tags := d.tags.getD []
             locale := d.locale.getD "en"
             hero_image := d.hero_image }
  | _, _, _, _ => none

/-- A store collection: documents tagged with their store-assigned id,
in natural (insertion) order, plus the next fresh id. -/
structure Col (α : Type) where
  docs : List (Nat × α)
  nextId : Nat
deriving DecidableEq

/-- The payload sequence of a collection (documents without their ids). -/
def payloads {α : Type} (c : Col α) : List α := c.docs.map Prod.snd

/-- Modelled from the spec: `database.py` (not present in the sources) is
the document-store adapter whose `insert(collection, document)` appends a
document; the store assigns a fresh opaque id.  `create_document` is the
adapter function `main.py` imports. -/
def create_document {α : Type} (c : Col α) (a : α) : Col α :=
  ⟨c.docs ++ [(c.nextId, a)], c.nextId + 1⟩

/-- The store's `delete_one({"_id": i})`: removes the first document whose
id equals `i` (ids are unique in a well-formed store). -/
def delete_one {α : Type} (c : Col α) (i : Nat) : Col α :=
  ⟨c.docs.eraseP (fun d => d.1 == i), c.nextId⟩

/-- The store's `find_one` under an equality filter on the fields selected
by `key`: the first document (natural order) whose key equals `kv`. -/
def find_one {α κ : Type} [DecidableEq κ] (key : α → κ) (c : Col α)
    (kv : κ) : Option (Nat × α) :=
  c.docs.find? (fun d => decide (key d.2 = kv))

/-- Modelled from the spec: `database.py`'s `get_documents(collection,
filter, limit)` — the documents matching the filter, in natural order, at
most `limit` of them; an unavailable store degrades to empty results. -/
def get_documents {α : Type} (dbAvail : Bool) (c : Col α)
    (p : Nat × α → Bool) (limit : Nat) : List (Nat × α) :=
  if dbAvail = false then [] else (c.docs.filter p).take limit

/-- Well-formedness maintained by the store: document ids are distinct and
below the next fresh id. -/
def ColWF {α : Type} (c : Col α) : Prop :=
  (c.docs.map Prod.fst).Nodup ∧ ∀ d ∈ c.docs, d.1 < c.nextId

instance {α : Type} (c : Col α) : Decidable (ColWF c) := by
  unfold ColWF; infer_instance

/-- Number of elements of `l` whose key equals `kv`. -/
def cntKey {α κ : Type} [DecidableEq κ] (key : α → κ) (kv : κ)
    (l : List α) : Nat :=
  (l.filter (fun a => decide (key a = kv))).length

/-- One iteration of the upsert loop of `main._seed_demo_watches` /
`main._seed_demo_blogs`: look the demo entity up by natural key; absent
means insert; present means skip (plain call) or delete-then-reinsert
(forced call). -/
def seedOne {α κ : Type} [DecidableEq κ] (key : α → κ) (force : Bool)
    (c : Col α) (e : α) : Col α :=
  match find_one key c (key e) with
  | none => create_document c e
  | some existing =>
      if force then create_document (delete_one c existing.1) e else c

/-- The body shared by `main._seed_demo_watches` and
`main._seed_demo_blogs`: no store means no-op; a plain call on a
non-empty collection is a no-op (coarse guard on `count_documents({})`);
otherwise the upsert loop runs over the demo list in order. -/
def seedCol {α κ : Type} [DecidableEq κ] (key : α → κ) (demo : List α)
    (dbAvail force : Bool) (c : Col α) : Col α :=
  if dbAvail = false then c
  else if force = false ∧ 0 < c.docs.length then c
  else demo.foldl (seedOne key force) c

/-- Natural key of a stored watch: the equality filter
`{"name": w.name}` used by the seeding loop. -/
def watchKey (d : WatchDoc) : Option String := d.name

/-- Natural key of a stored blog post: the equality filter
`{"slug": post.slug, "locale": post.locale}` used by the seeding loop. -/
def blogKey (d : BlogDoc) : Option String × Option String :=
  (d.slug, d.locale)

/-- The slug-only key used by `main.get_blog`'s `find_one({"slug": slug})`. -/
def bySlug (d : BlogDoc) : Option String := d.slug

/-- The literal demo watches of `main._seed_demo_watches`. -/
def demoWatches : List Watch :=
  [ { name := "Monaco Heritage Chronograph"
      brand := "Monaco Watch Co."
      description := some "A square-case chronograph inspired by the spirit of the Riviera."
      price := 9200
      currency := "USD"
      thumbnail := some "https://images.unsplash.com/photo-1526045612212-70caf35c14df?q=80&w=1600&auto=format&fit=crop"
      images :=
        [ "https://images.unsplash.com/photo-1526045612212-70caf35c14df?q=80&w=1600&auto=format&fit=crop",
          "https://images.unsplash.com/photo-1511385348-a52b4a160dc2?q=80&w=1600&auto=format&fit=crop" ]
      movement := some "Automatic"
      «case» := some "Stainless steel 39mm"
      strap := some "Alligator leather"
      water_resistance := some "100m"
      power_reserve := some "42h"
      complications := ["Chronograph", "Date"]
      featured := true
      in_stock := true
      rating := some 4.8 },
    { name := "Azur Moonphase"
      brand := "Monaco Watch Co."
      description := some "Elegant moonphase with a deep azure dial and applied indices."
      price := 11800
      currency := "USD"
      thumbnail := some "https://images.unsplash.com/photo-1524805444758-089113d48a6d?q=80&w=1600&auto=format&fit=crop"
      images :=
        [ "https://images.unsplash.com/photo-1524805444758-089113d48a6d?q=80&w=1600&auto=format&fit=crop",
          "https://images.unsplash.com/photo-1518546305927-5a555bb7020a?q=80&w=1600&auto=format&fit=crop" ]
      movement := some "Automatic"
      «case» := some "18k rose gold 41mm"
      strap := some "Blue calfskin"
      water_resistance := some "50m"
      power_reserve := some "70h"
      complications := ["Moonphase", "Date"]
      featured := true
      in_stock := true
      rating := some 4.9 },
    { name := "Port Royale Diver"
      brand := "Monaco Watch Co."
      description := some "Professional diver with ceramic bezel and luminous markers."
      price := 7800
      currency := "USD"
      thumbnail := some "https://images.unsplash.com/photo-1516478177764-9fe5bd7e9717?q=80&w=1600&auto=format&fit=crop"
      images :=
        [ "https://images.unsplash.com/photo-1516478177764-9fe5bd7e9717?q=80&w=1600&auto=format&fit=crop",
          "https://images.unsplash.com/photo-1490367532201-b9bc1dc483f6?q=80&w=1600&auto=format&fit=crop" ]
      movement := some "Automatic"
      «case» := some "Titanium 42mm"
      strap := some "Rubber"
      water_resistance := some "300m"
      power_reserve := some "60h"
      complications := ["Helium valve", "Date"]
      featured := false
      in_stock := true
      rating := some 4.7 } ]

/-- The literal demo blog posts of `main._seed_demo_blogs`. -/
def demoBlogPosts : List BlogPost :=
  [ { slug := "monaco-watchmaking-heritage"
      title := "The Heritage of Watchmaking in Monaco"
      excerpt := "From the Riviera to your wrist: a journey through precision and style."
      content := "Monaco blends Swiss precision with Mediterranean flair. In this article, we explore the craftsmanship behind our signature calibres, finishing techniques, and the art of timeless design."
      tags := ["heritage", "watchmaking", "monaco"]
      locale := "en"
      hero_image := some "https://images.unsplash.com/photo-1518546305927-5a555bb7020a?q=80&w=1600&auto=format&fit=crop" },
    { slug := "guide-automatic-vs-manual"
      title := "Automatic vs Manual: Which Movement Suits You?"
      excerpt := "Understand the differences to choose your perfect timepiece."
      content := "Choosing between automatic and manual winds depends on your lifestyle. We compare power reserves, maintenance, and tactile experience to help you decide."
      tags := ["guides", "movements"]
      locale := "en"
      hero_image := some "https://images.unsplash.com/photo-1526045612212-70caf35c14df?q=80&w=1600&auto=format&fit=crop" },
    { slug := "uhrmacherkunst-in-monaco"
      title := "Uhrmacherkunst in Monaco: Tradition trifft Moderne"
      excerpt := "Vom Riviera-Charme inspiriert – Präzision am Handgelenk."
      content := "Monaco vereint Schweizer Präzision mit mediterranem Esprit. Wir beleuchten Kaliber, Veredelungen und zeitloses Design."
      tags := ["tradition", "handwerk"]
      locale := "de"
      hero_image := some "https://images.unsplash.com/photo-1511385348-a52b4a160dc2?q=80&w=1600&auto=format&fit=crop" },
    { slug := "patrimoine-horloger-monaco"
      title := "Patrimoine horloger à Monaco"
      excerpt := "De la Riviera à votre poignet : la précision au service de l’élégance."
      content := "Monaco marie la précision suisse à l’allure méditerranéenne. Découvrez nos calibres, finitions et l’art d’un dessin intemporel."
      tags := ["patrimoine", "horlogerie"]
      locale := "fr"
      hero_image := some "https://images.unsplash.com/photo-1490367532201-b9bc1dc483f6?q=80&w=1600&auto=format&fit=crop" } ]

/-- The demo watches as stored documents. -/
def demoWatchDocs : List WatchDoc := demoWatches.map watchToDoc

/-- The demo blog posts as stored documents. -/
def demoBlogDocs : List BlogDoc := demoBlogPosts.map blogToDoc

/-- The natural keys of the demo watches. -/
def demoWatchKeys : List (Option String) := demoWatchDocs.map watchKey

/-- The natural keys of the demo blog posts. -/
def demoBlogKeys : List (Option String × Option String) :=
  demoBlogDocs.map blogKey

/-- `main._seed_demo_watches`, over the watch collection. -/
def seed_demo_watches (dbAvail force : Bool) (c : Col WatchDoc) :
    Col WatchDoc :=
  seedCol watchKey demoWatchDocs dbAvail force c

/-- `main._seed_demo_blogs`, over the blog collection. -/
def seed_demo_blogs (dbAvail force : Bool) (c : Col BlogDoc) :
    Col BlogDoc :=
  seedCol blogKey demoBlogDocs dbAvail force c

/-- The response body of `POST /api/seed`. -/
structure SeedResponse where
  status : String
deriving DecidableEq

/-- `main.seed`: the `POST /api/seed` handler — force-reseeds both
collections and always answers `{"status": "ok"}`. -/
def seed_endpoint (dbAvail : Bool) (s : Col WatchDoc × Col BlogDoc) :
    (Col WatchDoc × Col BlogDoc) × SeedResponse :=
  ((seed_demo_watches dbAvail true s.1, seed_demo_blogs dbAvail true s.2),
   ⟨"ok"⟩)

/-- The list-comprehension `[_doc_to_watch_out(d) for d in docs]`: the
projection of every fetched document, failing (a raised validation error)
as soon as one document fails to project. -/
def projectWatches : List (Nat × WatchDoc) → Option (List WatchOut)
  | [] => some []
  | d :: ds =>
    match docToWatchOut d.1 d.2, projectWatches ds with
    | some w, some ws => some (w :: ws)
    | _, _ => none

/-- The equality filter built by `main.list_watches` from the optional
`featured` query parameter. -/
def watchFilter (featured : Option Bool) (d : Nat × WatchDoc) : Bool :=
  match featured with
  | none => true
  | some b => decide (d.2.featured = some b)

/-- `main.list_watches` (`GET /api/watches`): seed-on-empty, then fetch
with the optional featured filter and the limit, then project.  Returns
the (possibly reseeded) collection and the response; `none` models a
projection (validation) failure. -/
def list_watches (dbAvail : Bool) (featured : Option Bool) (limit : Nat)
    (c : Col WatchDoc) : Col WatchDoc × Option (List WatchOut) :=
  let c1 := if dbAvail = true ∧ c.docs.length = 0
            then seed_demo_watches dbAvail false c else c
  (c1, projectWatches (get_documents dbAvail c1 (watchFilter featured) limit))

/-- Outcome of `GET /api/blogs/{slug}`: a record, a 404, a 500 for a
missing store, or a 500 from a validation error while shaping the
response. -/
inductive BlogFetchResult where
  | ok (b : BlogOut)
  | notFound
  | dbUnavailable
  | invalidDoc
deriving DecidableEq

/-- Whether a fetch outcome is a successfully returned record. -/
def BlogFetchResult.isOk : BlogFetchResult → Bool
  | .ok _ => true
  | _ => false

/-- `main.get_blog` (`GET /api/blogs/{slug}`): 500 without a store,
`find_one({"slug": slug})`, 404 when nothing matches, otherwise the
projection of the first matching document. -/
def get_blog (dbAvail : Bool) (slug : String) (c : Col BlogDoc) :
    BlogFetchResult :=
  if dbAvail = false then .dbUnavailable
  else
    match find_one bySlug c (some slug) with
    | none => .notFound
    | some d =>
        match docToBlogOut d.1 d.2 with
        | some b => .ok b
        | none => .invalidDoc

/-- The upsert loop of a forced seeding run (the loop of
`_seed_demo_watches`/`_seed_demo_blogs` with `force=True`, which skips
both early returns when the store is available). -/
def seedLoop {α κ : Type} [DecidableEq κ] (key : α → κ) (demo : List α)
    (c : Col α) : Col α :=
  demo.foldl (seedOne key true) c

/-- The sub-sequence of a payload list whose natural key is not among the
demo keys. -/
def nonDemoFilter {α κ : Type} [DecidableEq κ] (key : α → κ)
    (demo : List α) (l : List α) : List α :=
  l.filter (fun a => decide (key a ∉ demo.map key))

/-- An empty watch collection (a fresh store). -/
def emptyWatchCol : Col WatchDoc := ⟨[], 0⟩

/-- An empty blog collection (a fresh store). -/
def emptyBlogCol : Col BlogDoc := ⟨[], 0⟩

/-- A watch collection holding two documents that share the natural key
of the first demo watch — e.g. the accepted concurrent-cold-start race of
the spec, or manual edits. -/
def dupNameCol : Col WatchDoc :=
  ⟨[(0, { name := some "Monaco Heritage Chronograph" }),
    (1, { name := some "Monaco Heritage Chronograph" })], 2⟩

/-- A partially-malformed legacy watch document: it has a price but no
`name` and no `brand`. -/
def legacyWatchDoc : WatchDoc := { price := some 100 }

/-- A minimal well-formed watch document marked featured. -/
def sampleWatchDoc : WatchDoc :=
  { name := some "A", brand := some "B", featured := some true }

/-- A watch collection holding one featured document. -/
def sampleWatchCol : Col WatchDoc := ⟨[(5, sampleWatchDoc)], 6⟩

/-- A blog document that has a slug but is missing its required `title`
(and everything else). -/
def titlelessBlogDoc : BlogDoc := { slug := some "legacy-post" }

/-- A blog collection holding only `titlelessBlogDoc`. -/
def titlelessBlogCol : Col BlogDoc := ⟨[(0, titlelessBlogDoc)], 1⟩

/-- A blog document with slug, title and excerpt but no `content`. -/
def partialBlogDoc : BlogDoc :=
  { slug := some "patrimoine", title := some "T", excerpt := some "E",
    locale := some "fr" }

/-- A blog collection holding only `partialBlogDoc`. -/
def partialBlogCol : Col BlogDoc := ⟨[(0, partialBlogDoc)], 1⟩

/-- A complete blog document. -/
def fullBlogDoc : BlogDoc :=
  { slug := some "hello", title := some "Hello", excerpt := some "Hi",
    content := some "Body", tags := some ["t"], locale := some "en",
    hero_image := none }

/-- A blog collection holding only `fullBlogDoc`. -/
def fullBlogCol : Col BlogDoc := ⟨[(2, fullBlogDoc)], 3⟩

/-- The output record projected from `sampleWatchDoc` under id 5. -/
def sampleWatchOut : WatchOut :=
  { id := "5", name := "A", brand := "B", description := none, price := 0,
    currency := "USD", images := [], thumbnail := none, movement := none,
    «case» := none, strap := none, water_resistance := none,
    power_reserve := none, complications := [], featured := true,
    in_stock := true, rating := none }

/-- The output record projected from `fullBlogDoc` under id 2. -/
def fullBlogOut : BlogOut :=
  { id := "2", slug := "hello", title := "Hello", excerpt := "Hi",
    content := "Body", tags := ["t"], locale := "en", hero_image := none }

/-! ### Store lemmas -/

theorem find_one_eq_none_iff {α κ : Type} [DecidableEq κ] {key : α → κ}
    {c : Col α} {kv : κ} :
    find_one key c kv = none ↔ ∀ d ∈ c.docs, key d.2 ≠ kv := by
  simp [find_one, List.find?_eq_none]

theorem find_one_mem {α κ : Type} [DecidableEq κ] {key : α → κ}
    {c : Col α} {kv : κ} {d : Nat × α}
    (h : find_one key c kv = some d) : d ∈ c.docs :=
  List.mem_of_find?_eq_some h

theorem find_one_key {α κ : Type} [DecidableEq κ] {key : α → κ}
    {c : Col α} {kv : κ} {d : Nat × α}
    (h : find_one key c kv = some d) : key d.2 = kv := by
  unfold find_one at h
  have hp := List.find?_some h
  simpa using hp

theorem wf_create {α : Type} {c : Col α} {a : α} (h : ColWF c) :
    ColWF (create_document c a) := by
  obtain ⟨h1, h2⟩ := h
  have hfresh : c.nextId ∉ c.docs.map Prod.fst := by
    intro hmem
    obtain ⟨d, hd, hd1⟩ := List.mem_map.mp hmem
    exact absurd (hd1 ▸ h2 d hd) (lt_irrefl _)
  constructor
  · simp only [create_document, List.map_append, List.map_cons, List.map_nil]
    exact h1.append (List.nodup_singleton _)
      (List.disjoint_singleton.mpr hfresh)
  · intro d hd
    simp only [create_document] at hd
    rcases List.mem_append.mp hd with hd | hd
    · exact Nat.lt_succ_of_lt (h2 d hd)
    · rw [List.mem_singleton] at hd
      subst hd
      exact Nat.lt_succ_self _

theorem wf_delete {α : Type} {c : Col α} {i : Nat} (h : ColWF c) :
    ColWF (delete_one c i) := by
  obtain ⟨h1, h2⟩ := h
  have hsub : List.Sublist (c.docs.eraseP (fun d => d.1 == i)) c.docs :=
    List.eraseP_sublist _
  exact ⟨h1.sublist (hsub.map Prod.fst), fun d hd => h2 d (hsub.subset hd)⟩

theorem wf_seedOne {α κ : Type} [DecidableEq κ] {key : α → κ}
    {force : Bool} {c : Col α} {e : α} (h : ColWF c) :
    ColWF (seedOne key force c e) := by
  unfold seedOne
  cases hf : find_one key c (key e) with
  | none => exact wf_create h
  | some ex =>
      cases force with
      | false => simpa using h
      | true => simpa using wf_create (wf_delete h)

theorem wf_seed_loop {α κ : Type} [DecidableEq κ] {key : α → κ}
    {force : Bool} :
    ∀ (demo : List α) (c : Col α), ColWF c →
      ColWF (demo.foldl (seedOne key force) c)
  | [], _, h => h
  | _ :: rest, _, h => wf_seed_loop rest _ (wf_seedOne h)

theorem seedCol_db_unavailable {α κ : Type} [DecidableEq κ]
    {key : α → κ} {demo : List α} {force : Bool} {c : Col α} :
    seedCol key demo false force c = c := rfl

theorem seedCol_skip {α κ : Type} [DecidableEq κ] {key : α → κ}
    {demo : List α} {c : Col α} (h : 0 < c.docs.length) :
    seedCol key demo true false c = c := by
  simp [seedCol, h]

theorem seedCol_force {α κ : Type} [DecidableEq κ] {key : α → κ}
    {demo : List α} {c : Col α} :
    seedCol key demo true true c = demo.foldl (seedOne key true) c := by
  simp [seedCol]

/-! ### Counting lemmas -/

theorem cntKey_nil {α κ : Type} [DecidableEq κ] {key : α → κ} {kv : κ} :
    cntKey key kv [] = 0 := rfl

theorem cntKey_append {α κ : Type} [DecidableEq κ] {key : α → κ} {kv : κ}
    (l₁ l₂ : List α) :
    cntKey key kv (l₁ ++ l₂) = cntKey key kv l₁ + cntKey key kv l₂ := by
  simp [cntKey]

theorem cntKey_cons_eq {α κ : Type} [DecidableEq κ] {key : α → κ}
    {kv : κ} {a : α} (h : key a = kv) (l : List α) :
    cntKey key kv (a :: l) = cntKey key kv l + 1 := by
  simp [cntKey, List.filter_cons, h]

theorem cntKey_cons_ne {α κ : Type} [DecidableEq κ] {key : α → κ}
    {kv : κ} {a : α} (h : key a ≠ kv) (l : List α) :
    cntKey key kv (a :: l) = cntKey key kv l := by
  simp [cntKey, List.filter_cons, h]

theorem cntKey_eq_zero {α κ : Type} [DecidableEq κ] {key : α → κ}
    {kv : κ} {l : List α} :
    cntKey key kv l = 0 ↔ ∀ a ∈ l, key a ≠ kv := by
  simp [cntKey, List.length_eq_zero, List.filter_eq_nil_iff]

theorem cntKey_singleton_ne {α κ : Type} [DecidableEq κ] {key : α → κ}
    {kv : κ} {a : α} (h : key a ≠ kv) : cntKey key kv [a] = 0 :=
  cntKey_eq_zero.mpr (by intro x hx; rw [List.mem_singleton] at hx; subst hx; exact h)

theorem cntKey_self_of_nodup {α κ : Type} [DecidableEq κ] {key : α → κ} :
    ∀ {demo : List α}, (demo.map key).Nodup → ∀ {e}, e ∈ demo →
      cntKey key (key e) demo = 1 := by
  intro demo
  induction demo with
  | nil => intro _ e he; cases he
  | cons d rest ih =>
      intro hnd e he
      rw [List.map_cons, List.nodup_cons] at hnd
      rcases List.mem_cons.mp he with rfl | hr
      · rw [cntKey_cons_eq rfl]
        have h0 : cntKey key (key e) rest = 0 := by
          rw [cntKey_eq_zero]
          intro a ha heq
          exact hnd.1 (heq ▸ List.mem_map_of_mem key ha)
        rw [h0]
      · have hne : key d ≠ key e := by
          intro h
          exact hnd.1 (h ▸ List.mem_map_of_mem key hr)
        rw [cntKey_cons_ne hne, ih hnd.2 hr]

theorem map_snd_filter {α : Type} (p : α → Bool) :
    ∀ (l : List (Nat × α)),
      (l.filter (fun d => p d.2)).map Prod.snd = (l.map Prod.snd).filter p := by
  intro l
  induction l with
  | nil => rfl
  | cons h t ih => by_cases hp : p h.2 <;> simp [List.filter_cons, hp, ih]

/-! ### Exact shape of the store's delete-by-id on a well-formed store -/

theorem eraseId_decomp {α : Type} :
    ∀ (docs : List (Nat × α)) (ex : Nat × α),
      (docs.map Prod.fst).Nodup → ex ∈ docs →
      ∃ l₁ l₂, docs = l₁ ++ ex :: l₂ ∧
        docs.eraseP (fun d => d.1 == ex.1) = l₁ ++ l₂ ∧
        (∀ d ∈ l₁, d.1 ≠ ex.1) ∧ ∀ d ∈ l₂, d.1 ≠ ex.1 := by
  intro docs
  induction docs with
  | nil => intro ex _ hm; cases hm
  | cons h t ih =>
      intro ex hnd hm
      rw [List.map_cons, List.nodup_cons] at hnd
      by_cases hh : h.1 = ex.1
      · have hex : ex = h := by
          rcases List.mem_cons.mp hm with rfl | hmt
          · rfl
          · exfalso
            apply hnd.1
            rw [hh]
            exact List.mem_map_of_mem Prod.fst hmt
        subst hex
        refine ⟨[], t, by simp, ?_, by simp, ?_⟩
        · simp [List.eraseP_cons]
        · intro d hd heq
          apply hnd.1
          rw [← heq]
          exact List.mem_map_of_mem Prod.fst hd
      · have hmt : ex ∈ t := by
          rcases List.mem_cons.mp hm with rfl | hmt
          · exact absurd rfl hh
          · exact hmt
        obtain ⟨l₁, l₂, hsplit, herase, hl₁, hl₂⟩ := ih ex hnd.2 hmt
        refine ⟨h :: l₁, l₂, by rw [hsplit]; rfl, ?_, ?_, hl₂⟩
        · have hfalse : (h.1 == ex.1) = false := by simp [hh]
          simp [List.eraseP_cons, hfalse, herase]
        · intro d hd
          rcases List.mem_cons.mp hd with rfl | hd2
          · exact hh
          · exact hl₁ d hd2

/-! ### Frame property of the upsert loop: documents whose key it never
touches are preserved exactly (id, payload and relative order). -/

theorem filter_seedOne {α κ : Type} [DecidableEq κ] {key : α → κ}
    {force : Bool} {Q : κ → Bool} {c : Col α} {e : α}
    (hwf : ColWF c) (hQe : Q (key e) = false) :
    (seedOne key force c e).docs.filter (fun d => Q (key d.2))
      = c.docs.filter (fun d => Q (key d.2)) := by
  unfold seedOne
  cases hf : find_one key c (key e) with
  | none =>
      simp [create_document, List.filter_append, List.filter_cons, hQe]
  | some ex =>
      cases force with
      | false => simp
      | true =>
          have hkey : key ex.2 = key e := find_one_key hf
          have hmem : ex ∈ c.docs := find_one_mem hf
          obtain ⟨l₁, l₂, hsplit, herase, _, _⟩ :=
            eraseId_decomp c.docs ex hwf.1 hmem
          have hQex : Q (key ex.2) = false := by rw [hkey]; exact hQe
          simp only [if_pos]
          rw [create_document, delete_one]
          simp only [herase]
          conv_rhs => rw [hsplit]
          simp [List.filter_append, List.filter_cons, hQe, hQex]

theorem filter_seed_loop {α κ : Type} [DecidableEq κ] {key : α → κ}
    {force : Bool} {Q : κ → Bool} :
    ∀ (demo : List α), (∀ e ∈ demo, Q (key e) = false) →
    ∀ (c : Col α), ColWF c →
      (demo.foldl (seedOne key force) c).docs.filter (fun d => Q (key d.2))
        = c.docs.filter (fun d => Q (key d.2)) := by
  intro demo
  induction demo with
  | nil => intro _ c _; rfl
  | cons e rest ih =>
      intro hQ c hwf
      have hQe : Q (key e) = false := hQ e (List.mem_cons_self e rest)
      have hQr : ∀ x ∈ rest, Q (key x) = false :=
        fun x hx => hQ x (List.mem_cons_of_mem e hx)
      rw [List.foldl_cons, ih hQr _ (wf_seedOne hwf), filter_seedOne hwf hQe]

/-! ### Shape of a forced seeding run on a store with at most one document
per demo natural key. -/

theorem seed_force_payloads {α κ : Type} [DecidableEq κ] {key : α → κ} :
    ∀ (demo : List α), (demo.map key).Nodup →
    ∀ (c : Col α), ColWF c →
      (∀ e ∈ demo, cntKey key (key e) (payloads c) ≤ 1) →
      payloads (demo.foldl (seedOne key true) c)
        = (payloads c).filter (fun a => decide (key a ∉ demo.map key))
            ++ demo := by
  intro demo
  induction demo with
  | nil =>
      intro _ c _ _
      rw [List.foldl_nil, List.map_nil, List.append_nil]
      have : ∀ a ∈ payloads c, decide (key a ∉ ([] : List κ)) = true := by
        intro a _
        simp
      rw [List.filter_eq_self.mpr this]
  | cons e rest ih =>
      intro hnd c hwf hcnt
      rw [List.map_cons, List.nodup_cons] at hnd
      obtain ⟨hke, hndr⟩ := hnd
      have hcntE : cntKey key (key e) (payloads c) ≤ 1 :=
        hcnt e (List.mem_cons_self _ _)
      rw [List.foldl_cons]
      cases hf : find_one key c (key e) with
      | none =>
          have hnone : ∀ d ∈ c.docs, key d.2 ≠ key e :=
            find_one_eq_none_iff.mp hf
          have hpnone : ∀ a ∈ payloads c, key a ≠ key e := by
            intro a ha
            obtain ⟨d, hd, rfl⟩ := List.mem_map.mp ha
            exact hnone d hd
          have hstep : seedOne key true c e = create_document c e := by
            rw [seedOne, hf]
          have hpay1 : payloads (create_document c e) = payloads c ++ [e] := by
            simp [payloads, create_document]
          have hcnt1 : ∀ x ∈ rest,
              cntKey key (key x) (payloads (create_document c e)) ≤ 1 := by
            intro x hx
            rw [hpay1, cntKey_append]
            have hne : key e ≠ key x := by
              intro h
              exact hke (h ▸ List.mem_map_of_mem key hx)
            rw [cntKey_singleton_ne hne]
            simpa using hcnt x (List.mem_cons_of_mem _ hx)
          rw [hstep, ih hndr _ (wf_create hwf) hcnt1, hpay1,
            List.filter_append]
          have hfe : (([e] : List α).filter
              (fun a => decide (key a ∉ rest.map key))) = [e] := by
            rw [List.filter_cons]
            rw [decide_eq_true hke]
            simp
          rw [hfe]
          have hcong : (payloads c).filter
                (fun a => decide (key a ∉ rest.map key))
              = (payloads c).filter
                (fun a => decide (key a ∉ key e :: rest.map key)) := by
            apply List.filter_congr
            intro a ha
            apply decide_eq_decide.mpr
            simp [List.mem_cons, hpnone a ha]
          rw [hcong, List.append_assoc]
          rfl
      | some ex =>
          have hkey : key ex.2 = key e := find_one_key hf
          have hmem : ex ∈ c.docs := find_one_mem hf
          obtain ⟨l₁, l₂, hsplit, herase, _, _⟩ :=
            eraseId_decomp c.docs ex hwf.1 hmem
          have hpc : payloads c
              = l₁.map Prod.snd ++ ex.2 :: l₂.map Prod.snd := by
            rw [payloads, hsplit]
            simp
          have hc0 : cntKey key (key e) (l₁.map Prod.snd) = 0
              ∧ cntKey key (key e) (l₂.map Prod.snd) = 0 := by
            have h := hcntE
            rw [hpc, cntKey_append, cntKey_cons_eq hkey] at h
            omega
          have hm1 : ∀ a ∈ l₁.map Prod.snd, key a ≠ key e :=
            cntKey_eq_zero.mp hc0.1
          have hm2 : ∀ a ∈ l₂.map Prod.snd, key a ≠ key e :=
            cntKey_eq_zero.mp hc0.2
          have hstep : seedOne key true c e
              = create_document (delete_one c ex.1) e := by
            rw [seedOne, hf]
            rfl
          have hpay1 : payloads (create_document (delete_one c ex.1) e)
              = (l₁.map Prod.snd ++ l₂.map Prod.snd) ++ [e] := by
            rw [create_document, delete_one]
            simp only [payloads, herase]
            simp
          have hcnt1 : ∀ x ∈ rest,
              cntKey key (key x)
                (payloads (create_document (delete_one c ex.1) e)) ≤ 1 := by
            intro x hx
            have hxk : key e ≠ key x := by
              intro h
              exact hke (h ▸ List.mem_map_of_mem key hx)
            rw [hpay1, cntKey_append, cntKey_append,
              cntKey_singleton_ne hxk]
            have h := hcnt x (List.mem_cons_of_mem _ hx)
            rw [hpc, cntKey_append] at h
            by_cases hexx : key ex.2 = key x
            · rw [cntKey_cons_eq hexx] at h
              omega
            · rw [cntKey_cons_ne hexx] at h
              omega
          rw [hstep, ih hndr _ (wf_create (wf_delete hwf)) hcnt1, hpay1, hpc]
          simp only [List.filter_append, List.filter_cons, List.map_cons]
          have hfex : (decide (key ex.2 ∉ key e :: rest.map key)) = false := by
            simp [hkey, List.mem_cons]
          have hfe : (decide (key e ∉ rest.map key)) = true := by
            simpa using hke
          rw [hfex, hfe]
          have hcong1 : (l₁.map Prod.snd).filter
                (fun a => decide (key a ∉ rest.map key))
              = (l₁.map Prod.snd).filter
                (fun a => decide (key a ∉ key e :: rest.map key)) := by
            apply List.filter_congr
            intro a ha
            apply decide_eq_decide.mpr
            simp [List.mem_cons, hm1 a ha]
          have hcong2 : (l₂.map Prod.snd).filter
                (fun a => decide (key a ∉ rest.map key))
              = (l₂.map Prod.snd).filter
                (fun a => decide (key a ∉ key e :: rest.map key)) := by
            apply List.filter_congr
            intro a ha
            apply decide_eq_decide.mpr
            simp [List.mem_cons, hm2 a ha]
          rw [hcong1, hcong2]
          simp

theorem cntKey_filter_demo_zero {α κ : Type} [DecidableEq κ]
    {key : α → κ} {demo : List α} {e : α} (he : e ∈ demo) (l : List α) :
    cntKey key (key e)
      (l.filter (fun a => decide (key a ∉ demo.map key))) = 0 := by
  rw [cntKey_eq_zero]
  intro a ha heq
  have h2 := (List.mem_filter.mp ha).2
  exact (of_decide_eq_true h2) (heq ▸ List.mem_map_of_mem key he)

theorem seedLoop_payloads {α κ : Type} [DecidableEq κ] {key : α → κ}
    {demo : List α} (hnd : (demo.map key).Nodup) (c : Col α)
    (hwf : ColWF c)
    (hcnt : ∀ e ∈ demo, cntKey key (key e) (payloads c) ≤ 1) :
    payloads (seedLoop key demo c)
      = (payloads c).filter (fun a => decide (key a ∉ demo.map key))
          ++ demo :=
  seed_force_payloads demo hnd c hwf hcnt

theorem seedLoop_iter_payloads {α κ : Type} [DecidableEq κ]
    {key : α → κ} {demo : List α} (hnd : (demo.map key).Nodup) :
    ∀ (n : Nat) (c : Col α), ColWF c →
      (∀ e ∈ demo, cntKey key (key e) (payloads c) ≤ 1) →
      payloads ((seedLoop key demo)^[n + 1] c)
        = (payloads c).filter (fun a => decide (key a ∉ demo.map key))
            ++ demo := by
  intro n
  induction n with
  | zero =>
      intro c hwf hcnt
      rw [Function.iterate_one]
      exact seedLoop_payloads hnd c hwf hcnt
  | succ n ih =>
      intro c hwf hcnt
      rw [Function.iterate_succ_apply]
      have h1 := seedLoop_payloads hnd c hwf hcnt
      have hwf1 : ColWF (seedLoop key demo c) := wf_seed_loop demo c hwf
      have hcnt1 : ∀ e ∈ demo,
          cntKey key (key e) (payloads (seedLoop key demo c)) ≤ 1 := by
        intro e he
        rw [h1, cntKey_append, cntKey_filter_demo_zero he,
          cntKey_self_of_nodup hnd he]
      rw [ih _ hwf1 hcnt1, h1, List.filter_append]
      have hd0 : demo.filter (fun a => decide (key a ∉ demo.map key))
          = [] := by
        rw [List.filter_eq_nil_iff]
        intro a ha h
        exact (of_decide_eq_true h) (List.mem_map_of_mem key ha)
      have hFf : (((payloads c).filter
              (fun a => decide (key a ∉ demo.map key))).filter
              (fun a => decide (key a ∉ demo.map key)))
          = (payloads c).filter (fun a => decide (key a ∉ demo.map key)) :=
        List.filter_eq_self.mpr (fun a ha => (List.mem_filter.mp ha).2)
      rw [hd0, hFf, List.append_nil]

theorem seedLoop_iter_unique {α κ : Type} [DecidableEq κ]
    {key : α → κ} {demo : List α} (hnd : (demo.map key).Nodup)
    (n : Nat) (c : Col α) (hwf : ColWF c)
    (hcnt : ∀ e ∈ demo, cntKey key (key e) (payloads c) ≤ 1) :
    ∀ e ∈ demo,
      cntKey key (key e) (payloads ((seedLoop key demo)^[n + 1] c)) = 1 := by
  intro e he
  rw [seedLoop_iter_payloads hnd n c hwf hcnt, cntKey_append,
    cntKey_filter_demo_zero he, cntKey_self_of_nodup hnd he]

/-! ### Projection and endpoint lemmas -/

theorem docToWatchOut_featured {i : Nat} {d : WatchDoc} {w : WatchOut}
    (h : docToWatchOut i d = some w) :
    w.featured = d.featured.getD false := by
  unfold docToWatchOut at h
  cases hn : d.name <;> cases hb : d.brand <;> rw [hn, hb] at h
  · exact Option.noConfusion h
  · exact Option.noConfusion h
  · exact Option.noConfusion h
  · have h2 := Option.some.inj h
    rw [← h2]

theorem projectWatches_length :
    ∀ {l : List (Nat × WatchDoc)} {out : List WatchOut},
      projectWatches l = some out → out.length = l.length := by
  intro l
  induction l with
  | nil =>
      intro out h
      have h2 : some ([] : List WatchOut) = some out := h
      injection h2 with h3
      rw [← h3]
      rfl
  | cons d ds ih =>
      intro out h
      simp only [projectWatches] at h
      cases hw : docToWatchOut d.1 d.2 with
      | none =>
          cases hp : projectWatches ds <;> rw [hw, hp] at h <;>
            exact Option.noConfusion h
      | some w =>
          cases hp : projectWatches ds with
          | none => rw [hw, hp] at h; exact Option.noConfusion h
          | some ws =>
              rw [hw, hp] at h
              injection h with h2
              rw [← h2, List.length_cons, List.length_cons, ih hp]

theorem projectWatches_mem :
    ∀ {l : List (Nat × WatchDoc)} {out : List WatchOut},
      projectWatches l = some out →
      ∀ w ∈ out, ∃ d ∈ l, docToWatchOut d.1 d.2 = some w := by
  intro l
  induction l with
  | nil =>
      intro out h w hw
      have h2 : some ([] : List WatchOut) = some out := h
      injection h2 with h3
      rw [← h3] at hw
      cases hw
  | cons d ds ih =>
      intro out h w hw
      simp only [projectWatches] at h
      cases hw0 : docToWatchOut d.1 d.2 with
      | none =>
          cases hp : projectWatches ds <;> rw [hw0, hp] at h <;>
            exact Option.noConfusion h
      | some w0 =>
          cases hp : projectWatches ds with
          | none => rw [hw0, hp] at h; exact Option.noConfusion h
          | some ws =>
              rw [hw0, hp] at h
              injection h with h2
              rw [← h2] at hw
              rcases List.mem_cons.mp hw with rfl | hw2
              · exact ⟨d, List.mem_cons_self _ _, hw0⟩
              · obtain ⟨d2, hd2, hd2w⟩ := ih hp w hw2
                exact ⟨d2, List.mem_cons_of_mem _ hd2, hd2w⟩

/-! ### Seeding an empty collection -/

theorem seedW_empty (c : Col WatchDoc) (h : c.docs = []) :
    payloads (seed_demo_watches true false c) = demoWatchDocs := by
  obtain ⟨docs, n⟩ := c
  have h2 : docs = [] := h
  subst h2
  rfl

theorem seedB_empty (b : Col BlogDoc) (h : b.docs = []) :
    payloads (seed_demo_blogs true false b) = demoBlogDocs := by
  obtain ⟨docs, n⟩ := b
  have h2 : docs = [] := h
  subst h2
  rfl

theorem seedW_empty_len (c : Col WatchDoc) (h : c.docs = []) :
    0 < (seed_demo_watches true false c).docs.length := by
  have hp := seedW_empty c h
  have hl : (seed_demo_watches true false c).docs.length
      = demoWatchDocs.length := by
    rw [← List.length_map _ Prod.snd]
    exact congrArg List.length hp
  rw [hl]
  decide

theorem seedB_empty_len (b : Col BlogDoc) (h : b.docs = []) :
    0 < (seed_demo_blogs true false b).docs.length := by
  have hp := seedB_empty b h
  have hl : (seed_demo_blogs true false b).docs.length
      = demoBlogDocs.length := by
    rw [← List.length_map _ Prod.snd]
    exact congrArg List.length hp
  rw [hl]
  decide

/-! ### Single blog fetch lemmas -/

theorem get_blog_found (slug : String) (c : Col BlogDoc)
    (d : Nat × BlogDoc)
    (hf : find_one bySlug c (some slug) = some d) :
    get_blog true slug c
      = match docToBlogOut d.1 d.2 with
        | some b => BlogFetchResult.ok b
        | none => BlogFetchResult.invalidDoc := by
  unfold get_blog
  rw [hf]
  rfl

theorem get_blog_notFound_iff (slug : String) (c : Col BlogDoc) :
    get_blog true slug c = BlogFetchResult.notFound
      ↔ ∀ d ∈ c.docs, d.2.slug ≠ some slug := by
  constructor
  · intro h d hd hslug
    cases hf : find_one bySlug c (some slug) with
    | none => exact (find_one_eq_none_iff.mp hf d hd) hslug
    | some ex =>
        rw [get_blog_found slug c ex hf] at h
        cases hb : docToBlogOut ex.1 ex.2 <;> rw [hb] at h <;>
          exact BlogFetchResult.noConfusion h
  · intro h
    have hnone : find_one bySlug c (some slug) = none :=
      find_one_eq_none_iff.mpr h
    unfold get_blog
    rw [hnone]
    rfl

/-! ### Claims -/

/-- Claim C6: when the store is unavailable, every seeding call, for any
force value, is a no-op that returns successfully without raising and
without changing any state. -/
theorem C6_store_unavailable_noop :
    ∀ (force : Bool) (c : Col WatchDoc) (b : Col BlogDoc),
      seed_demo_watches false force c = c
        ∧ seed_demo_blogs false force b = b :=
  fun _ _ _ => ⟨rfl, rfl⟩

/-- Claim C10: POST /api/seed always responds with body
`{"status": "ok"}`, and when the store is unavailable both force reseeds
are no-ops, so the success response does not imply any seeding occurred. -/
theorem C10_seed_endpoint_always_ok :
    (∀ (dbAvail : Bool) (s : Col WatchDoc × Col BlogDoc),
        (seed_endpoint dbAvail s).2 = ⟨"ok"⟩)
    ∧ ∀ (s : Col WatchDoc × Col BlogDoc), (seed_endpoint false s).1 = s :=
  ⟨fun _ _ => rfl, fun _ => rfl⟩

/-- Claim C3: a plain (force=false) seeding call on a non-empty collection
leaves the store completely unchanged, and on an empty collection it
inserts exactly the demo entities (each of whose natural keys is then
absent, so all are inserted, in order). -/
theorem C3_plain_seed_coarse_guard :
    (∀ c : Col WatchDoc, c.docs ≠ [] → seed_demo_watches true false c = c)
    ∧ (∀ b : Col BlogDoc, b.docs ≠ [] → seed_demo_blogs true false b = b)
    ∧ (∀ c : Col WatchDoc, c.docs = [] →
        payloads (seed_demo_watches true false c) = demoWatchDocs)
    ∧ ∀ b : Col BlogDoc, b.docs = [] →
        payloads (seed_demo_blogs true false b) = demoBlogDocs :=
  ⟨fun _ h => seedCol_skip (List.length_pos.mpr h),
   fun _ h => seedCol_skip (List.length_pos.mpr h),
   seedW_empty, seedB_empty⟩

/-- Witness for C3 at concrete collections. -/
theorem C3_plain_seed_coarse_guard_witness :
    sampleWatchCol.docs ≠ [] ∧ fullBlogCol.docs ≠ []
    ∧ emptyWatchCol.docs = [] ∧ emptyBlogCol.docs = []
    ∧ seed_demo_watches true false sampleWatchCol = sampleWatchCol
    ∧ seed_demo_blogs true false fullBlogCol = fullBlogCol
    ∧ payloads (seed_demo_watches true false emptyWatchCol) = demoWatchDocs
    ∧ payloads (seed_demo_blogs true false emptyBlogCol) = demoBlogDocs :=
  ⟨by decide, by decide, rfl, rfl,
   C3_plain_seed_coarse_guard.1 sampleWatchCol (by decide),
   C3_plain_seed_coarse_guard.2.1 fullBlogCol (by decide),
   C3_plain_seed_coarse_guard.2.2.1 emptyWatchCol rfl,
   C3_plain_seed_coarse_guard.2.2.2 emptyBlogCol rfl⟩

/-- Claim C4: seeding with force=false starting from an empty store is
idempotent — after the first run, any number of further plain runs leaves
the state exactly as after the first run. -/
theorem C4_plain_seed_idempotent :
    (∀ c : Col WatchDoc, c.docs = [] → ∀ n : Nat,
        (seed_demo_watches true false)^[n] (seed_demo_watches true false c)
          = seed_demo_watches true false c)
    ∧ ∀ b : Col BlogDoc, b.docs = [] → ∀ n : Nat,
        (seed_demo_blogs true false)^[n] (seed_demo_blogs true false b)
          = seed_demo_blogs true false b := by
  constructor
  · intro c h n
    have hfix : seed_demo_watches true false (seed_demo_watches true false c)
        = seed_demo_watches true false c := seedCol_skip (seedW_empty_len c h)
    exact Function.iterate_fixed hfix n
  · intro b h n
    have hfix : seed_demo_blogs true false (seed_demo_blogs true false b)
        = seed_demo_blogs true false b := seedCol_skip (seedB_empty_len b h)
    exact Function.iterate_fixed hfix n

/-- Witness for C4 at the empty store with one extra run. -/
theorem C4_plain_seed_idempotent_witness :
    emptyWatchCol.docs = [] ∧ emptyBlogCol.docs = []
    ∧ (seed_demo_watches true false)^[1]
        (seed_demo_watches true false emptyWatchCol)
        = seed_demo_watches true false emptyWatchCol
    ∧ (seed_demo_blogs true false)^[1]
        (seed_demo_blogs true false emptyBlogCol)
        = seed_demo_blogs true false emptyBlogCol :=
  ⟨rfl, rfl, C4_plain_seed_idempotent.1 emptyWatchCol rfl 1,
   C4_plain_seed_idempotent.2 emptyBlogCol rfl 1⟩

/-- Claim C5: a forced seeding run never deletes or modifies a document
whose natural key is not among the demo keys — the sub-sequence of such
documents (ids and payloads) is exactly preserved. -/
theorem C5_force_seed_frame (c : Col WatchDoc) (b : Col BlogDoc)
    (hcw : ColWF c) (hbw : ColWF b) :
    (seed_demo_watches true true c).docs.filter
        (fun d => decide (watchKey d.2 ∉ demoWatchKeys))
      = c.docs.filter (fun d => decide (watchKey d.2 ∉ demoWatchKeys))
    ∧ (seed_demo_blogs true true b).docs.filter
        (fun d => decide (blogKey d.2 ∉ demoBlogKeys))
      = b.docs.filter (fun d => decide (blogKey d.2 ∉ demoBlogKeys)) := by
  constructor
  · have hQ : ∀ e ∈ demoWatchDocs,
        (fun kv : Option String => decide (kv ∉ demoWatchKeys))
          (watchKey e) = false := by
      intro e he
      apply decide_eq_false
      apply not_not_intro
      rw [demoWatchKeys]
      exact List.mem_map_of_mem watchKey he
    have h := @filter_seed_loop WatchDoc (Option String) _ watchKey true
      (fun kv => decide (kv ∉ demoWatchKeys)) demoWatchDocs hQ c hcw
    have h2 : seed_demo_watches true true c
        = demoWatchDocs.foldl (seedOne watchKey true) c := seedCol_force
    rw [h2]
    exact h
  · have hQ : ∀ e ∈ demoBlogDocs,
        (fun kv : Option String × Option String =>
          decide (kv ∉ demoBlogKeys)) (blogKey e) = false := by
      intro e he
      apply decide_eq_false
      apply not_not_intro
      rw [demoBlogKeys]
      exact List.mem_map_of_mem blogKey he
    have h := @filter_seed_loop BlogDoc (Option String × Option String) _
      blogKey true (fun kv => decide (kv ∉ demoBlogKeys)) demoBlogDocs
      hQ b hbw
    have h2 : seed_demo_blogs true true b
        = demoBlogDocs.foldl (seedOne blogKey true) b := seedCol_force
    rw [h2]
    exact h

/-- Witness for C5 at concrete well-formed collections. -/
theorem C5_force_seed_frame_witness :
    ColWF dupNameCol ∧ ColWF fullBlogCol
    ∧ ((seed_demo_watches true true dupNameCol).docs.filter
          (fun d => decide (watchKey d.2 ∉ demoWatchKeys))
        = dupNameCol.docs.filter
          (fun d => decide (watchKey d.2 ∉ demoWatchKeys))
      ∧ (seed_demo_blogs true true fullBlogCol).docs.filter
          (fun d => decide (blogKey d.2 ∉ demoBlogKeys))
        = fullBlogCol.docs.filter
          (fun d => decide (blogKey d.2 ∉ demoBlogKeys))) :=
  ⟨by decide, by decide,
   C5_force_seed_frame dupNameCol fullBlogCol (by decide) (by decide)⟩
/-- Counterexample to claim C1 as stated: from a prior state holding two
documents with the natural key of the first demo watch, one forced seeding
run (and likewise every further one) leaves that demo entity present twice,
not exactly once — `find_one`/`delete_one` remove only one duplicate while
`create_document` adds one back. -/
theorem C1_counterexample :
    cntKey watchKey (some "Monaco Heritage Chronograph")
        (payloads (seed_demo_watches true true dupNameCol)) = 2
    ∧ ¬ cntKey watchKey (some "Monaco Heritage Chronograph")
        (payloads (seed_demo_watches true true dupNameCol)) = 1 := by
  decide

/-- Claim C1 (amended): restricted to prior store states with at most one
document per demo natural key (duplicates, which one forced run cannot
repair, excluded), any number of forced seeding runs yields a store where
each demo entity exists exactly once, and from the first run on the
payload sequence is the fixed point "untouched non-demo documents followed
by the demo entities" (store-assigned ids are refreshed on every run). -/
theorem C1_force_seed_convergence (c : Col WatchDoc) (b : Col BlogDoc)
    (hcw : ColWF c) (hbw : ColWF b)
    (hcc : ∀ e ∈ demoWatchDocs,
      cntKey watchKey (watchKey e) (payloads c) ≤ 1)
    (hbc : ∀ e ∈ demoBlogDocs,
      cntKey blogKey (blogKey e) (payloads b) ≤ 1) (n : Nat) :
    (payloads ((seed_demo_watches true true)^[n + 1] c)
        = nonDemoFilter watchKey demoWatchDocs (payloads c)
          ++ demoWatchDocs
      ∧ ∀ e ∈ demoWatchDocs, cntKey watchKey (watchKey e)
          (payloads ((seed_demo_watches true true)^[n + 1] c)) = 1)
    ∧ (payloads ((seed_demo_blogs true true)^[n + 1] b)
        = nonDemoFilter blogKey demoBlogDocs (payloads b)
          ++ demoBlogDocs
      ∧ ∀ e ∈ demoBlogDocs, cntKey blogKey (blogKey e)
          (payloads ((seed_demo_blogs true true)^[n + 1] b)) = 1) := by
  have hfw : seed_demo_watches true true
      = seedLoop watchKey demoWatchDocs := funext fun x => seedCol_force
  have hfb : seed_demo_blogs true true
      = seedLoop blogKey demoBlogDocs := funext fun x => seedCol_force
  have hndw : (demoWatchDocs.map watchKey).Nodup := by decide
  have hndb : (demoBlogDocs.map blogKey).Nodup := by decide
  rw [hfw, hfb]
  exact ⟨⟨seedLoop_iter_payloads hndw n c hcw hcc,
          seedLoop_iter_unique hndw n c hcw hcc⟩,
         seedLoop_iter_payloads hndb n b hbw hbc,
         seedLoop_iter_unique hndb n b hbw hbc⟩

/-- Witness for the amended C1 at the empty store, one run. -/
theorem C1_force_seed_convergence_witness :
    ColWF emptyWatchCol ∧ ColWF emptyBlogCol
    ∧ (∀ e ∈ demoWatchDocs,
        cntKey watchKey (watchKey e) (payloads emptyWatchCol) ≤ 1)
    ∧ (∀ e ∈ demoBlogDocs,
        cntKey blogKey (blogKey e) (payloads emptyBlogCol) ≤ 1)
    ∧ ((payloads ((seed_demo_watches true true)^[0 + 1] emptyWatchCol)
          = nonDemoFilter watchKey demoWatchDocs (payloads emptyWatchCol)
            ++ demoWatchDocs
        ∧ ∀ e ∈ demoWatchDocs, cntKey watchKey (watchKey e)
            (payloads ((seed_demo_watches true true)^[0 + 1]
              emptyWatchCol)) = 1)
      ∧ (payloads ((seed_demo_blogs true true)^[0 + 1] emptyBlogCol)
          = nonDemoFilter blogKey demoBlogDocs (payloads emptyBlogCol)
            ++ demoBlogDocs
        ∧ ∀ e ∈ demoBlogDocs, cntKey blogKey (blogKey e)
            (payloads ((seed_demo_blogs true true)^[0 + 1]
              emptyBlogCol)) = 1)) :=
  ⟨by decide, by decide, by decide, by decide,
   C1_force_seed_convergence emptyWatchCol emptyBlogCol
     (by decide) (by decide) (by decide) (by decide) 0⟩

/-- Counterexample to claim C2 as stated: a stored watch document missing
`name` and `brand` (here it even has a price) does not project — the
projection fails instead of defaulting every missing required field. -/
theorem C2_counterexample :
    docToWatchOut 0 legacyWatchDoc = none
    ∧ legacyWatchDoc.price = some 100 :=
  ⟨rfl, rfl⟩

/-- Claim C2 (amended): the projection of a stored watch document succeeds
exactly when `name` and `brand` are present; then every missing optional
field becomes `none` (a present-but-empty `thumbnail` is also normalized
to `none` by the code's truthiness check), a missing `price` defaults to
0.0, a missing `currency` defaults to "USD", and the defaulted booleans to
false/true; a document missing `name` or `brand` fails validation
instead. -/
theorem C2_projection_defaults (i : Nat) (d : WatchDoc) :
    (d.name = none ∨ d.brand = none → docToWatchOut i d = none)
    ∧ ∀ (n b : String), d.name = some n → d.brand = some b →
        docToWatchOut i d
          = some { id := toString i
                   name := n
                   brand := b
                   description := d.description
                   price := d.price.getD 0
                   currency := d.currency.getD "USD"
                   images := d.images.getD []
                   thumbnail := strIfTruthy d.thumbnail
                   movement := d.movement
                   «case» := d.«case»
                   strap := d.strap
                   water_resistance := d.water_resistance
                   power_reserve := d.power_reserve
                   complications := d.complications.getD []
                   featured := d.featured.getD false
                   in_stock := d.in_stock.getD true
                   rating := d.rating } := by
  constructor
  · intro h
    unfold docToWatchOut
    rcases h with h | h
    · rw [h]
    · rw [h]
      cases d.name <;> rfl
  · intro n b hn hb
    unfold docToWatchOut
    rw [hn, hb]

/-- Witness for the amended C2 at a concrete document with most fields
missing: price projects to 0, currency to "USD". -/
theorem C2_projection_defaults_witness :
    sampleWatchDoc.name = some "A" ∧ sampleWatchDoc.brand = some "B"
    ∧ docToWatchOut 5 sampleWatchDoc = some sampleWatchOut :=
  ⟨rfl, rfl, by
    have h := (C2_projection_defaults 5 sampleWatchDoc).2 "A" "B" rfl rfl
    rw [h]
    rfl⟩

/-- Claim C7: listing watches with the featured=true filter returns only
records whose featured field is true, and at most `limit` of them
(whenever the endpoint returns a list at all). -/
theorem C7_featured_filter (db : Bool) (limit : Nat)
    (c cOut : Col WatchDoc) (out : List WatchOut)
    (h : list_watches db (some true) limit c = (cOut, some out)) :
    out.length ≤ limit ∧ ∀ w ∈ out, w.featured = true := by
  have h2 : projectWatches (get_documents db
      (if db = true ∧ c.docs.length = 0
       then seed_demo_watches db false c else c)
      (watchFilter (some true)) limit) = some out := congrArg Prod.snd h
  cases db with
  | false =>
      have h4 : some ([] : List WatchOut) = some out := h2
      injection h4 with h5
      constructor
      · rw [← h5]
        exact Nat.zero_le limit
      · intro w hw
        rw [← h5] at hw
        cases hw
  | true =>
      have h3 : projectWatches
          (((if true = true ∧ c.docs.length = 0
             then seed_demo_watches true false c
             else c).docs.filter (watchFilter (some true))).take limit)
          = some out := h2
      constructor
      · rw [projectWatches_length h3]
        exact List.length_take_le _ _
      · intro w hw
        obtain ⟨d, hd, hdw⟩ := projectWatches_mem h3 w hw
        have hdf := List.take_subset _ _ hd
        have hp := (List.mem_filter.mp hdf).2
        have hft : d.2.featured = some true := by
          simpa [watchFilter] using hp
        rw [docToWatchOut_featured hdw, hft]
        rfl

/-- Witness for C7 at a one-document featured collection with limit 12. -/
theorem C7_featured_filter_witness :
    list_watches true (some true) 12 sampleWatchCol
      = (sampleWatchCol, some [sampleWatchOut])
    ∧ ([sampleWatchOut].length ≤ 12
      ∧ ∀ w ∈ [sampleWatchOut], w.featured = true) :=
  ⟨rfl, C7_featured_filter true 12 sampleWatchCol sampleWatchCol
    [sampleWatchOut] rfl⟩

/-- Counterexample to claim C8 as stated: a stored blog document matching
the requested slug exists, yet the fetch neither returns a record nor a
404 — the matching document is missing required content fields, so
response validation fails (a 500), contradicting "returns exactly one blog
output record when a matching document exists". -/
theorem C8_counterexample :
    (∃ d ∈ titlelessBlogCol.docs, d.2.slug = some "legacy-post")
    ∧ (get_blog true "legacy-post" titlelessBlogCol).isOk = false
    ∧ get_blog true "legacy-post" titlelessBlogCol
        ≠ BlogFetchResult.notFound := by
  decide

/-- Claim C8 (amended): the single blog fetch returns a 500 error when the
store is unavailable; a 404 exactly when no stored document has the
requested slug; exactly one output record when the first matching
document projects; and a matching document missing a required content
field instead fails response validation (a server error), not a returned
record. -/
theorem C8_get_blog_contract :
    (∀ (slug : String) (c : Col BlogDoc),
        get_blog false slug c = BlogFetchResult.dbUnavailable)
    ∧ (∀ (slug : String) (c : Col BlogDoc),
        get_blog true slug c = BlogFetchResult.notFound
          ↔ ∀ d ∈ c.docs, d.2.slug ≠ some slug)
    ∧ (∀ (slug : String) (c : Col BlogDoc) (d : Nat × BlogDoc)
        (b : BlogOut),
        find_one bySlug c (some slug) = some d →
        docToBlogOut d.1 d.2 = some b →
        get_blog true slug c = BlogFetchResult.ok b)
    ∧ ∀ (slug : String) (c : Col BlogDoc) (d : Nat × BlogDoc),
        find_one bySlug c (some slug) = some d →
        docToBlogOut d.1 d.2 = none →
        get_blog true slug c = BlogFetchResult.invalidDoc := by
  refine ⟨fun _ _ => rfl, get_blog_notFound_iff, ?_, ?_⟩
  · intro slug c d b hf hb
    rw [get_blog_found slug c d hf, hb]
  · intro slug c d hf hb
    rw [get_blog_found slug c d hf, hb]

/-- Witness for the amended C8: a store-less fetch, the 404 iff at a
miss, a well-formed hit, and a malformed hit. -/
theorem C8_get_blog_contract_witness :
    get_blog false "x" emptyBlogCol = BlogFetchResult.dbUnavailable
    ∧ (get_blog true "x" emptyBlogCol = BlogFetchResult.notFound
        ↔ ∀ d ∈ emptyBlogCol.docs, d.2.slug ≠ some "x")
    ∧ find_one bySlug fullBlogCol (some "hello") = some (2, fullBlogDoc)
    ∧ docToBlogOut 2 fullBlogDoc = some fullBlogOut
    ∧ get_blog true "hello" fullBlogCol = BlogFetchResult.ok fullBlogOut
    ∧ find_one bySlug titlelessBlogCol (some "legacy-post")
        = some (0, titlelessBlogDoc)
    ∧ docToBlogOut 0 titlelessBlogDoc = none
    ∧ get_blog true "legacy-post" titlelessBlogCol
        = BlogFetchResult.invalidDoc :=
  ⟨C8_get_blog_contract.1 "x" emptyBlogCol,
   C8_get_blog_contract.2.1 "x" emptyBlogCol, rfl, rfl,
   C8_get_blog_contract.2.2.1 "hello" fullBlogCol (2, fullBlogDoc)
     fullBlogOut rfl rfl, rfl, rfl,
   C8_get_blog_contract.2.2.2 "legacy-post" titlelessBlogCol
     (0, titlelessBlogDoc) rfl rfl⟩

/-- Counterexample to claim C9 as stated: a stored document with the
requested slug exists (in locale "fr"), yet the fetch does not succeed —
the matching document is missing `content`, so it fails validation, which
breaks "succeeds if and only if some stored blog document has that slug in
any locale". -/
theorem C9_counterexample :
    (∃ d ∈ partialBlogCol.docs, d.2.slug = some "patrimoine")
    ∧ (get_blog true "patrimoine" partialBlogCol).isOk = false := by
  decide

/-- Claim C9 (amended): the single blog fetch matches stored documents by
slug alone, ignoring locale entirely: with the store available it returns
404 exactly when no stored document has that slug in any locale, and
otherwise the response is determined by the first document with that slug
in store order, whatever its locale — an ok record if it projects, a
validation failure if not. -/
theorem C9_slug_only_lookup :
    (∀ (slug : String) (c : Col BlogDoc),
        get_blog true slug c = BlogFetchResult.notFound
          ↔ ∀ d ∈ c.docs, d.2.slug ≠ some slug)
    ∧ ∀ (slug : String) (c : Col BlogDoc) (d : Nat × BlogDoc),
        find_one bySlug c (some slug) = some d →
        get_blog true slug c
          = match docToBlogOut d.1 d.2 with
            | some b => BlogFetchResult.ok b
            | none => BlogFetchResult.invalidDoc :=
  ⟨get_blog_notFound_iff, get_blog_found⟩

/-- Witness for the amended C9: the iff at a concrete miss, and the
first-match clause at a concrete hit. -/
theorem C9_slug_only_lookup_witness :
    (get_blog true "hello" fullBlogCol = BlogFetchResult.notFound
      ↔ ∀ d ∈ fullBlogCol.docs, d.2.slug ≠ some "hello")
    ∧ find_one bySlug fullBlogCol (some "hello") = some (2, fullBlogDoc)
    ∧ get_blog true "hello" fullBlogCol
        = match docToBlogOut 2 fullBlogDoc with
          | some b => BlogFetchResult.ok b
          | none => BlogFetchResult.invalidDoc :=
  ⟨C9_slug_only_lookup.1 "hello" fullBlogCol, rfl,
   C9_slug_only_lookup.2 "hello" fullBlogCol (2, fullBlogDoc) rfl⟩
